import Mathlib

/-!
Verification of the instrumentation-score repository.

Shallow embedding of the Go sources:
  * `internal/engine` (rule evaluation and scoring, `engine.go` / `rule_definition.go`)
  * `internal/collectors` (`prometheus.go` retry client, `collector.go` orchestration)
  * `internal/loaders` / `collector.go` record-file writing and parsing.

Conventions of the embedding:
  * Go strings are Lean `String`s; the byte-level helpers from Go's `strings`
    package (`Contains`, `ToLower`, `Split` with a one-character separator,
    `TrimSpace`, `Join`) are re-implemented on `List Char` so that they are
    kernel-computable.  Go's `strings.Split` is only ever called with the
    one-character separators `"|"`, `","` and `":"` in this code base.
  * Go's `regexp` package is abstracted by an oracle
    `rmatch : String → String → Bool` (pattern, then subject); a compile
    failure of the pattern is folded into the oracle returning `false`,
    exactly the observable behaviour of `compareStrings` in the source.
  * Go `int`/`int64` become `Nat`/`Int` (the counters in the engine are only
    ever incremented, so no overflow wrap is observable for the list sizes a
    Lean term denotes); `float64` scores become `Rat` (the score formula uses
    only +, ×, / on values that are exact in both domains).
  * Concurrency in the collector is modelled by the per-task result functions
    (there is no inter-task communication in the source other than appending
    to the shared accumulator, so the accumulated multiset is a function of
    the per-task outcomes; we fix the textual order of the input lists).
-/

namespace InstrScore

/-! ### Go string helpers (byte-level semantics of package `strings`) -/

/-- Does `s` start with `sub`?  (`strings.HasPrefix`.) -/
def startsWithList : List Char → List Char → Bool
  | _, [] => true
  | [], _ :: _ => false
  | c :: s, d :: t => c == d && startsWithList s t

/-- Occurrence of `sub` somewhere in `s` (`strings.Contains`). -/
def containsAux : List Char → List Char → Bool
  | [], sub => sub.isEmpty
  | s :: rest, sub => startsWithList (s :: rest) sub || containsAux rest sub

/-- Embeds `strings.Contains s sub`. -/
def goContains (s sub : String) : Bool := containsAux s.data sub.data

/-- Embeds `strings.ToLower` (per-character lowering; ASCII-faithful). -/
def goToLower (s : String) : String := ⟨s.data.map Char.toLower⟩

/-- Embeds `strings.HasPrefix`. -/
def goStartsWith (s pre : String) : Bool := startsWithList s.data pre.data

/-- Embeds `strings.Split` with a one-character separator, on character lists. -/
def splitCharList (sep : Char) : List Char → List (List Char)
  | [] => [[]]
  | c :: rest =>
    if c == sep then [] :: splitCharList sep rest
    else
      match splitCharList sep rest with
      | [] => [[c]]
      | h :: t => (c :: h) :: t

/-- Embeds `strings.Split s (String.singleton sep)`. -/
def goSplit (sep : Char) (s : String) : List String :=
  (splitCharList sep s.data).map String.mk

/-- Embeds `strings.Join` with a separator (`strings.Join parts sep`). -/
def goJoin (sep : String) : List String → String
  | [] => ""
  | [x] => x
  | x :: y :: t => x ++ sep ++ goJoin sep (y :: t)

/-- The whitespace set of Go's `unicode.IsSpace` restricted to Latin-1
(space, tab, newline, vertical tab, form feed, carriage return, NEL, NBSP).
The embedding only ever applies it to ASCII data. -/
def goIsSpace (ch : Char) : Bool :=
  ch == ' ' || ch == '\t' || ch == '\n' || ch == '\x0b' ||
  ch == '\x0c' || ch == '\r' || ch == '\x85' || ch == '\xa0'

/-- Embeds `strings.TrimSpace`. -/
def goTrimSpace (s : String) : String :=
  ⟨((s.data.dropWhile goIsSpace).reverse.dropWhile goIsSpace).reverse⟩

/-- Embeds `strconv.ParseInt _ 10 64`: optional sign, at least one digit, all
digits, result within the `int64` range. -/
def goParseInt (s : String) : Option Int :=
  let signDigits : Int × List Char :=
    match s.data with
    | '+' :: rest => (1, rest)
    | '-' :: rest => (-1, rest)
    | l => (1, l)
  let digits := signDigits.2
  if digits.isEmpty then none
  else if digits.all Char.isDigit then
    let n : Nat := digits.foldl (fun acc c => acc * 10 + (c.toNat - '0'.toNat)) 0
    let v : Int := signDigits.1 * n
    if -(2 ^ 63) ≤ v ∧ v ≤ 2 ^ 63 - 1 then some v else none
  else none

/-! ### Engine data model (`internal/loaders`, `internal/engine/rule_definition.go`) -/

/-- Embeds `loaders.CardinalityData`. -/
structure CardinalityData where
  metricName : String
  count : Int
deriving DecidableEq, Repr

/-- Embeds `loaders.LabelsData`. -/
structure LabelsData where
  metricName : String
  labels : List String
deriving DecidableEq, Repr

/-- The dynamic (`interface{}`) value of a condition, as produced by the YAML
unmarshaller: a string, an integer, a floating-point number, or anything
else (for which every type assertion in the engine fails).  `float64` is
modelled as `Rat`; the engine only compares such values. -/
inductive CondValue where
  | str (s : String)
  | intVal (n : Int)
  | floatVal (q : Rat)
  | other
deriving DecidableEq, Repr

/-- Embeds `engine.ConditionConfig`. -/
structure ConditionConfig where
  field : String
  operator : String
  value : CondValue
deriving DecidableEq, Repr

/-- Embeds `engine.ValidatorConfig` (the UI-only fields `UITitle`/`UIDescription`
and the unused `Parameters` map are omitted: they never influence
evaluation or scoring). -/
structure ValidatorConfig where
  name : String
  type : String
  dataSource : String
  conditions : List ConditionConfig
deriving DecidableEq, Repr

/-- Embeds `engine.RuleDefinition` (the free-text `Description` is omitted). -/
structure RuleDefinition where
  ruleID : String
  impact : String
  validators : List ValidatorConfig
deriving DecidableEq, Repr

/-- Embeds `engine.RuleResult`.  `failedMetrics` keeps the insertion sequence of
`(metricName, validatorName)` pairs appended to the Go map; the UI-only
`ValidatorStats` slice (names, pass rates and display strings recomputed
from the counters kept here) is omitted. -/
structure RuleResult where
  ruleID : String
  impact : String
  passedChecks : Nat
  totalChecks : Nat
  failedChecks : List String
  failedMetrics : List (String × String)
  passedMetrics : Nat
  totalMetrics : Nat
  passedCardinality : Int
  totalCardinality : Int
deriving DecidableEq, Repr

/-! ### Condition evaluation (`engine.go`) -/

/-- Embeds `(*RuleEngine).compareStrings`.  The regex oracle `rmatch` receives the
pattern first; `rmatch pat s = false` covers both a non-match and a failed
`regexp.Compile`, the two cases in which the source returns `false`. -/
def compareStrings (rmatch : String → String → Bool)
    (actual operator : String) (expected : CondValue) : Bool :=
  match expected with
  | .str expectedStr =>
    match operator with
    | "matches" => rmatch expectedStr actual
    | "contains" => goContains (goToLower actual) (goToLower expectedStr)
    | "not_contains" => !goContains (goToLower actual) (goToLower expectedStr)
    | "eq" => actual == expectedStr
    | _ => false
  | _ => false

/-- Embeds `(*RuleEngine).compareValues` (numeric comparison; the expected value
must be a `float64` or an `int`). -/
def compareValues (actual : Rat) (operator : String) (expected : CondValue) : Bool :=
  match expected with
  | .floatVal q => compareValuesOp actual operator q
  | .intVal n => compareValuesOp actual operator (n : Rat)
  | _ => false
where
  /-- The operator dispatch of `compareValues`. -/
  compareValuesOp (actual : Rat) (operator : String) (expectedVal : Rat) : Bool :=
    match operator with
    | "gt" => decide (actual > expectedVal)
    | "lt" => decide (actual < expectedVal)
    | "gte" => decide (actual ≥ expectedVal)
    | "lte" => decide (actual ≤ expectedVal)
    | "eq" => decide (actual = expectedVal)
    | _ => false

/-- Embeds `(*RuleEngine).compareLabelCount` (the expected value must be an `int`). -/
def compareLabelCount (labelCount : Nat) (condition : ConditionConfig) : Bool :=
  match condition.value with
  | .intVal n =>
    match condition.operator with
    | "lt" => decide ((labelCount : Int) < n)
    | "lte" => decide ((labelCount : Int) ≤ n)
    | "gt" => decide ((labelCount : Int) > n)
    | "gte" => decide ((labelCount : Int) ≥ n)
    | "eq" => decide ((labelCount : Int) = n)
    | _ => false
  | _ => false

/-- Embeds `(*RuleEngine).evaluateLabelsField`: the per-operator quantifier
asymmetry over the label set.  The value must be a string. -/
def evaluateLabelsField (rmatch : String → String → Bool)
    (labels : List String) (condition : ConditionConfig) : Bool :=
  match condition.value with
  | .str expectedStr =>
    match condition.operator with
    | "not_contains" =>
      labels.all fun label => !goContains (goToLower label) (goToLower expectedStr)
    | "contains" =>
      labels.any fun label => goContains (goToLower label) (goToLower expectedStr)
    | "matches" =>
      labels.all fun label => compareStrings rmatch label condition.operator condition.value
    | _ =>
      labels.any fun label => compareStrings rmatch label condition.operator condition.value
  | _ => false

/-- Embeds `(*RuleEngine).evaluateCardinalityMetric`: all conditions AND-combined;
an unknown field makes the metric fail (the source returns `false`). -/
def evaluateCardinalityMetric (rmatch : String → String → Bool)
    (metric : CardinalityData) (conditions : List ConditionConfig) : Bool :=
  conditions.all fun condition =>
    match condition.field with
    | "count" => compareValues (metric.count : Rat) condition.operator condition.value
    | "metric_name" => compareStrings rmatch metric.metricName condition.operator condition.value
    | _ => false

/-- Embeds `(*RuleEngine).evaluateLabelsMetric`. -/
def evaluateLabelsMetric (rmatch : String → String → Bool)
    (metric : LabelsData) (conditions : List ConditionConfig) : Bool :=
  conditions.all fun condition =>
    match condition.field with
    | "metric_name" => compareStrings rmatch metric.metricName condition.operator condition.value
    | "labels" => evaluateLabelsField rmatch metric.labels condition
    | "label_count" => compareLabelCount metric.labels.length condition
    | _ => false

/-! ### Validator and rule evaluation (`engine.go`) -/

/-- A value of the `dataSources map[string]interface{}`: either a
cardinality or a labels slice (the only two kinds the engine ever stores). -/
inductive SourceData where
  | card (rows : List CardinalityData)
  | lbl (rows : List LabelsData)
deriving DecidableEq, Repr

/-- The `dataSources` map built by `evaluateWithDataSources` /
`EvaluateWithData`: it only ever holds the keys `"cardinality"` and
`"labels"`.  `none` models an absent key (`data == nil` in the source;
note that even a nil slice stored under the key yields a non-nil
interface value in Go, so presence of the key is what `some` tracks). -/
structure DataSources where
  cardinality : Option (List CardinalityData)
  labels : Option (List LabelsData)
deriving DecidableEq, Repr

/-- Embeds the lookup `dataSources[validator.DataSource]`. -/
def DataSources.get (ds : DataSources) (key : String) : Option SourceData :=
  match key with
  | "cardinality" => ds.cardinality.map .card
  | "labels" => ds.labels.map .lbl
  | _ => none

/-- The cardinality rows of the data-source map (empty when absent). -/
def DataSources.cardRows (ds : DataSources) : List CardinalityData :=
  ds.cardinality.getD []

/-- The total series count of the cardinality data source. -/
def DataSources.cardSum (ds : DataSources) : Int :=
  (ds.cardRows.map (·.count)).sum

/-- Embeds `engine.ValidatorResult` — the five values returned by
`evaluateValidatorWithStats`. -/
structure ValidatorResult where
  passedCount : Nat
  totalCount : Nat
  failedMetrics : List String
  passedCardinality : Int
  totalCardinality : Int
deriving DecidableEq, Repr

/-- Embeds `evaluateMetrics` (the generic loop): count of passing rows, total row
count, and the names of the failing rows in order. -/
def evaluateMetrics {α : Type} (data : List α) (eval : α → Bool) (nameOf : α → String) :
    Nat × Nat × List String :=
  ((data.filter eval).length, data.length, (data.filter fun m => !eval m).map nameOf)

/-- Embeds `evaluateMetricsWithCardinality`: like `evaluateMetrics` on cardinality
rows, additionally summing `Count` over the passing rows and over all rows. -/
def evaluateMetricsWithCardinality (data : List CardinalityData)
    (eval : CardinalityData → Bool) : ValidatorResult :=
  { passedCount := (data.filter eval).length
    totalCount := data.length
    failedMetrics := (data.filter fun m => !eval m).map (·.metricName)
    passedCardinality := ((data.filter eval).map (·.count)).sum
    totalCardinality := ((data.map (·.count)).sum) }

/-- Embeds `(*RuleEngine).evaluateValidatorWithStats`: look up the validator's data
source, then dispatch on the validator type, with the Go type assertions
becoming shape checks on `SourceData`.  Label-based validator types
contribute zero to both cardinality sums. -/
def evaluateValidatorWithStats (rmatch : String → String → Bool)
    (validator : ValidatorConfig) (ds : DataSources) : Except String ValidatorResult :=
  match ds.get validator.dataSource with
  | none => .error ("data source " ++ validator.dataSource ++ " not found")
  | some data =>
    match validator.type, data with
    | "cardinality", .card rows =>
      .ok (evaluateMetricsWithCardinality rows
        (fun m => evaluateCardinalityMetric rmatch m validator.conditions))
    | "cardinality", .lbl _ => .error ("invalid data type for " ++ validator.type ++ " validator")
    | "format", .lbl rows =>
      let r := evaluateMetrics rows
        (fun m => evaluateLabelsMetric rmatch m validator.conditions) (·.metricName)
      .ok ⟨r.1, r.2.1, r.2.2, 0, 0⟩
    | "format", .card _ => .error "format validator requires labels data source"
    | "labels", .lbl rows =>
      let r := evaluateMetrics rows
        (fun m => evaluateLabelsMetric rmatch m validator.conditions) (·.metricName)
      .ok ⟨r.1, r.2.1, r.2.2, 0, 0⟩
    | "labels", .card _ => .error ("invalid data type for " ++ validator.type ++ " validator")
    | "label_count", .lbl rows =>
      let r := evaluateMetrics rows
        (fun m => evaluateLabelsMetric rmatch m validator.conditions) (·.metricName)
      .ok ⟨r.1, r.2.1, r.2.2, 0, 0⟩
    | "label_count", .card _ => .error ("invalid data type for " ++ validator.type ++ " validator")
    | _, _ => .error ("unknown validator type: " ++ validator.type)

/-- One iteration of the validator loop in `evaluateRule`: fold the
validator's `ValidatorResult` into the accumulated `RuleResult`. -/
def accumulateValidator (acc : RuleResult) (vname : String) (o : ValidatorResult) : RuleResult :=
  { acc with
    passedMetrics := acc.passedMetrics + o.passedCount
    totalMetrics := acc.totalMetrics + o.totalCount
    passedCardinality := acc.passedCardinality + o.passedCardinality
    totalCardinality := acc.totalCardinality + o.totalCardinality
    passedChecks := acc.passedChecks + 1
    failedChecks :=
      if o.failedMetrics.length > 0 then acc.failedChecks ++ [vname] else acc.failedChecks
    failedMetrics := acc.failedMetrics ++ o.failedMetrics.map fun m => (m, vname) }

/-- The validator loop of `(*RuleEngine).evaluateRule`; an error from any
validator aborts the rule (the Go function returns the partial result
alongside the error, but every caller discards it on error). -/
def evaluateRuleAux (rmatch : String → String → Bool) (ds : DataSources) :
    List ValidatorConfig → RuleResult → Except String RuleResult
  | [], acc => .ok acc
  | v :: rest, acc =>
    match evaluateValidatorWithStats rmatch v ds with
    | .error e => .error ("validator " ++ v.name ++ " failed: " ++ e)
    | .ok o => evaluateRuleAux rmatch ds rest (accumulateValidator acc v.name o)

/-- Embeds `(*RuleEngine).evaluateRule`. -/
def evaluateRule (rmatch : String → String → Bool)
    (rule : RuleDefinition) (ds : DataSources) : Except String RuleResult :=
  evaluateRuleAux rmatch ds rule.validators
    { ruleID := rule.ruleID
      impact := rule.impact
      passedChecks := 0
      totalChecks := rule.validators.length
      failedChecks := []
      failedMetrics := []
      passedMetrics := 0
      totalMetrics := 0
      passedCardinality := 0
      totalCardinality := 0 }

/-! ### Score calculation (`CalculateInstrumentationScore`) -/

/-- The `impactWeights` map of `CalculateInstrumentationScore`; a Go map
lookup of a missing key yields the zero value `0.0`. -/
def impactWeight (impact : String) : Rat :=
  match impact with
  | "Critical" => 40
  | "Important" => 30
  | "Normal" => 20
  | "Low" => 10
  | _ => 0

/-- The per-rule numerator contribution in `CalculateInstrumentationScore`. -/
def ruleNumerator (r : RuleResult) : Rat :=
  if r.totalCardinality > 0 then (r.passedCardinality : Rat) * impactWeight r.impact
  else (r.passedMetrics : Rat) * impactWeight r.impact

/-- The per-rule denominator contribution in `CalculateInstrumentationScore`. -/
def ruleDenominator (r : RuleResult) : Rat :=
  if r.totalCardinality > 0 then (r.totalCardinality : Rat) * impactWeight r.impact
  else (r.totalMetrics : Rat) * impactWeight r.impact

/-- Embeds `engine.CalculateInstrumentationScore`. -/
def CalculateInstrumentationScore (results : List RuleResult) : Rat :=
  let numerator := (results.map ruleNumerator).sum
  let denominator := (results.map ruleDenominator).sum
  if denominator = 0 then 0 else numerator / denominator * 100

/-! ### The spec's reference scoring formula (§4.5) -/

/-- The spec's fixed weight table: Critical=40, Important=30, Normal=20,
Low=10.  The spec's `impact` is an enum of exactly these four values, so
the catch-all branch is outside the spec's domain (claims are stated under
the hypothesis that every impact is one of the four). -/
def specWeight (impact : String) : Rat :=
  match impact with
  | "Critical" => 40
  | "Important" => 30
  | "Normal" => 20
  | "Low" => 10
  | _ => 0

/-- The spec's score formula, §4.5: per rule, numerator
`passedCardinality × weight` and denominator `totalCardinality × weight`
when `totalCardinality > 0`, otherwise `passedMetrics × weight` and
`totalMetrics × weight`; score `100 × Σnum / Σden`, defined as `0` when
the denominator sum is `0`. -/
def specScore (results : List RuleResult) : Rat :=
  let numeratorSum := (results.map fun r =>
    if r.totalCardinality > 0 then (r.passedCardinality : Rat) * specWeight r.impact
    else (r.passedMetrics : Rat) * specWeight r.impact).sum
  let denominatorSum := (results.map fun r =>
    if r.totalCardinality > 0 then (r.totalCardinality : Rat) * specWeight r.impact
    else (r.totalMetrics : Rat) * specWeight r.impact).sum
  if denominatorSum = 0 then 0 else 100 * numeratorSum / denominatorSum

/-- C1: the score calculator, applied to any sequence of `RuleResult`s whose
impacts lie in the spec's impact enum, equals the spec's reference formula
(numerators/denominators chosen by `totalCardinality > 0`, weights 40/30/20/10,
score `100 × Σnum / Σden`), and it is exactly `0` whenever the denominator
sum is `0`. -/
theorem score_matches_spec_formula (results : List RuleResult)
    (himp : ∀ r ∈ results, r.impact = "Critical" ∨ r.impact = "Important" ∨
      r.impact = "Normal" ∨ r.impact = "Low") :
    CalculateInstrumentationScore results = specScore results ∧
    ((results.map ruleDenominator).sum = 0 → CalculateInstrumentationScore results = 0) := by
  have hcalc : CalculateInstrumentationScore results =
      if (results.map ruleDenominator).sum = 0 then 0
      else (results.map ruleNumerator).sum / (results.map ruleDenominator).sum * 100 := rfl
  have hspec : specScore results =
      if (results.map ruleDenominator).sum = 0 then 0
      else 100 * (results.map ruleNumerator).sum / (results.map ruleDenominator).sum := rfl
  constructor
  · by_cases h : (results.map ruleDenominator).sum = 0
    · rw [hcalc, hspec, if_pos h, if_pos h]
    · rw [hcalc, hspec, if_neg h, if_neg h]; ring
  · intro h
    rw [hcalc, if_pos h]

/-- The spec's §8 scoring scenario: a Critical cardinality-weighted rule
passing 40000 of 50000 series and an Important labels-based rule passing
95 of 100 metrics. -/
def scenarioResults : List RuleResult :=
  [{ ruleID := "PROM-MET-02", impact := "Critical", passedChecks := 1, totalChecks := 1,
     failedChecks := [], failedMetrics := [], passedMetrics := 80, totalMetrics := 100,
     passedCardinality := 40000, totalCardinality := 50000 },
   { ruleID := "PROM-LBL-01", impact := "Important", passedChecks := 1, totalChecks := 1,
     failedChecks := [], failedMetrics := [], passedMetrics := 95, totalMetrics := 100,
     passedCardinality := 0, totalCardinality := 0 }]

/-- Witness for `score_matches_spec_formula` at the spec's §8 scenario. -/
theorem score_matches_spec_formula_witness :
    (∀ r ∈ scenarioResults, r.impact = "Critical" ∨ r.impact = "Important" ∨
      r.impact = "Normal" ∨ r.impact = "Low") ∧
    (CalculateInstrumentationScore scenarioResults = specScore scenarioResults ∧
      ((scenarioResults.map ruleDenominator).sum = 0 →
        CalculateInstrumentationScore scenarioResults = 0)) :=
  ⟨by decide, score_matches_spec_formula scenarioResults (by decide)⟩

/-- The case-insensitive substring test the engine applies to labels. -/
def labelContainsCI (label value : String) : Bool :=
  goContains (goToLower label) (goToLower value)

/-- C2: per-operator quantifier semantics of the `labels` field.
`not_contains` holds iff no label contains the value as a case-insensitive
substring; `contains` holds iff at least one label does; `matches` holds iff
every label in the set matches the value as a regular expression (via the
regex oracle `rmatch`, pattern first). -/
theorem labels_field_operator_asymmetry (rmatch : String → String → Bool)
    (field : String) (labels : List String) (v : String) :
    (evaluateLabelsField rmatch labels ⟨field, "not_contains", .str v⟩ = true ↔
      ∀ l ∈ labels, ¬labelContainsCI l v = true) ∧
    (evaluateLabelsField rmatch labels ⟨field, "contains", .str v⟩ = true ↔
      ∃ l ∈ labels, labelContainsCI l v = true) ∧
    (evaluateLabelsField rmatch labels ⟨field, "matches", .str v⟩ = true ↔
      ∀ l ∈ labels, rmatch v l = true) := by
  refine ⟨?_, ?_, ?_⟩ <;>
    simp [evaluateLabelsField, compareStrings, labelContainsCI,
      List.all_eq_true, List.any_eq_true]

/-- A concrete regex oracle deciding the single pattern `^[a-z]+$`
(one-or-more lowercase ASCII letters), used to instantiate
`labels_field_operator_asymmetry` on the spec's §8 example. -/
def lowercaseOracle (pat s : String) : Bool :=
  pat == "^[a-z]+$" && !s.isEmpty && s.data.all fun c => 'a' ≤ c && c ≤ 'z'

/-- Witness for `labels_field_operator_asymmetry` at the spec's §8 example:
labels `{"method","status"}`, `matches ^[a-z]+$` and `contains "meth"`. -/
theorem labels_field_operator_asymmetry_witness :
    (evaluateLabelsField lowercaseOracle ["method", "status"]
        ⟨"labels", "not_contains", .str "meth"⟩ = true ↔
      ∀ l ∈ ["method", "status"], ¬labelContainsCI l "meth" = true) ∧
    (evaluateLabelsField lowercaseOracle ["method", "status"]
        ⟨"labels", "contains", .str "meth"⟩ = true ↔
      ∃ l ∈ ["method", "status"], labelContainsCI l "meth" = true) ∧
    (evaluateLabelsField lowercaseOracle ["method", "status"]
        ⟨"labels", "matches", .str "meth"⟩ = true ↔
      ∀ l ∈ ["method", "status"], lowercaseOracle "meth" l = true) :=
  labels_field_operator_asymmetry lowercaseOracle "labels" ["method", "status"] "meth"

/-! ### Structural lemmas about validator and rule evaluation -/

lemma DataSources.get_card_eq (ds : DataSources) (key : String) (rows : List CardinalityData)
    (h : ds.get key = some (.card rows)) : key = "cardinality" ∧ ds.cardinality = some rows := by
  unfold DataSources.get at h
  split at h
  · obtain ⟨l, hl, hcast⟩ := Option.map_eq_some'.mp h
    cases hcast
    exact ⟨rfl, hl⟩
  · obtain ⟨l, _, hcast⟩ := Option.map_eq_some'.mp h
    cases hcast
  · cases h

lemma DataSources.get_lbl_eq (ds : DataSources) (key : String) (rows : List LabelsData)
    (h : ds.get key = some (.lbl rows)) : key = "labels" ∧ ds.labels = some rows := by
  unfold DataSources.get at h
  split at h
  · obtain ⟨l, _, hcast⟩ := Option.map_eq_some'.mp h
    cases hcast
  · obtain ⟨l, hl, hcast⟩ := Option.map_eq_some'.mp h
    cases hcast
    exact ⟨rfl, hl⟩
  · cases h

lemma sum_filter_count_bounds (l : List CardinalityData) (p : CardinalityData → Bool)
    (h : ∀ m ∈ l, 0 ≤ m.count) :
    0 ≤ ((l.filter p).map (·.count)).sum ∧
      ((l.filter p).map (·.count)).sum ≤ (l.map (·.count)).sum := by
  induction l with
  | nil => simp
  | cons hd tl ih =>
    have hhd : 0 ≤ hd.count := h hd (by simp)
    have htl := ih fun m hm => h m (by simp [hm])
    by_cases hp : p hd <;> simp [List.filter_cons, hp] <;> omega

/-- What a successful validator evaluation guarantees: pass count bounded by
row count, total cardinality equal to the source's series sum exactly when
the validator reads the cardinality source, and (for non-negative counts)
cardinality sums within bounds. -/
lemma evaluateValidatorWithStats_ok_spec (rmatch : String → String → Bool)
    (v : ValidatorConfig) (ds : DataSources) (o : ValidatorResult)
    (h : evaluateValidatorWithStats rmatch v ds = .ok o) :
    o.passedCount ≤ o.totalCount ∧
    o.totalCardinality = (if v.dataSource = "cardinality" then ds.cardSum else 0) ∧
    ((∀ m ∈ ds.cardRows, 0 ≤ m.count) →
      0 ≤ o.passedCardinality ∧ o.passedCardinality ≤ o.totalCardinality) := by
  unfold evaluateValidatorWithStats at h
  cases hget : ds.get v.dataSource with
  | none => rw [hget] at h; cases h
  | some data =>
    simp only [hget] at h
    split at h <;> try cases h
    all_goals first
      | (rename_i rows _heq
         obtain ⟨hkey, hcard⟩ := DataSources.get_card_eq ds v.dataSource rows hget
         have hrows : ds.cardRows = rows := by simp [DataSources.cardRows, hcard]
         refine ⟨?_, ?_, ?_⟩
         · simpa [evaluateMetricsWithCardinality] using
             List.length_filter_le (fun m => evaluateCardinalityMetric rmatch m v.conditions) rows
         · simp [evaluateMetricsWithCardinality, hkey, DataSources.cardSum, hrows]
         · intro hnn
           rw [hrows] at hnn
           simpa [evaluateMetricsWithCardinality] using
             sum_filter_count_bounds rows
               (fun m => evaluateCardinalityMetric rmatch m v.conditions) hnn)
      | (rename_i rows _heq
         obtain ⟨hkey, hlbl⟩ := DataSources.get_lbl_eq ds v.dataSource rows hget
         refine ⟨?_, by simp [hkey], by intro _; simp⟩
         simpa [evaluateMetrics] using
           List.length_filter_le (fun m => evaluateLabelsMetric rmatch m v.conditions) rows)

/-- What a successful run of the validator loop guarantees, relative to the
accumulator it starts from. -/
lemma evaluateRuleAux_ok_spec (rmatch : String → String → Bool) (ds : DataSources) :
    ∀ (vs : List ValidatorConfig) (acc res : RuleResult),
      evaluateRuleAux rmatch ds vs acc = .ok res →
      res.totalChecks = acc.totalChecks ∧
      res.passedChecks = acc.passedChecks + vs.length ∧
      res.totalCardinality = acc.totalCardinality +
        ((vs.countP fun v => v.dataSource == "cardinality") : Int) * ds.cardSum ∧
      ((∀ m ∈ ds.cardRows, 0 ≤ m.count) →
        (acc.passedMetrics ≤ acc.totalMetrics → res.passedMetrics ≤ res.totalMetrics) ∧
        (0 ≤ acc.passedCardinality → 0 ≤ res.passedCardinality) ∧
        (0 ≤ acc.passedCardinality → acc.passedCardinality ≤ acc.totalCardinality →
          res.passedCardinality ≤ res.totalCardinality)) := by
  intro vs
  induction vs with
  | nil =>
    intro acc res h
    cases h
    simp
  | cons v rest ih =>
    intro acc res h
    unfold evaluateRuleAux at h
    cases hv : evaluateValidatorWithStats rmatch v ds with
    | error e => rw [hv] at h; cases h
    | ok o =>
      rw [hv] at h
      obtain ⟨h1, h2, h3, h4⟩ := ih (accumulateValidator acc v.name o) res h
      obtain ⟨hpt, htc, hcard⟩ := evaluateValidatorWithStats_ok_spec rmatch v ds o hv
      simp only [accumulateValidator] at h1 h2 h3 h4
      refine ⟨h1, by simp [h2, List.length_cons]; omega, ?_, ?_⟩
      · rw [h3, htc]
        by_cases hds : v.dataSource = "cardinality" <;>
          simp [hds, List.countP_cons] <;> push_cast <;> ring
      · intro hnn
        obtain ⟨g1, g2, g3⟩ := h4 hnn
        obtain ⟨c1, c2⟩ := hcard hnn
        have hoc : o.totalCardinality = ds.cardSum ∨ o.totalCardinality = 0 := by
          rw [htc]; by_cases hds : v.dataSource = "cardinality" <;> simp [hds]
        refine ⟨fun hb => g1 (by omega), fun hb => g2 (by omega), fun hb hb2 => g3 (by omega) (by omega)⟩

/-! ### C3: totalCardinality versus use of the cardinality data source -/

/-- A regex oracle that matches nothing (also models patterns that fail to
compile). -/
def noRegex : String → String → Bool := fun _ _ => false

/-- A rule whose single validator reads the cardinality data source. -/
def cardOnlyRule : RuleDefinition :=
  { ruleID := "CARD-RULE", impact := "Critical",
    validators := [{ name := "card-check", type := "cardinality",
                     dataSource := "cardinality",
                     conditions := [{ field := "count", operator := "gte",
                                      value := .intVal 0 }] }] }

/-- A data-source map whose cardinality data consists of one metric with
zero observed series. -/
def zeroCountSources : DataSources :=
  { cardinality := some [{ metricName := "m", count := 0 }], labels := none }

/-- C3 counterexample: a rule with a validator on the cardinality data
source evaluates successfully to `totalCardinality = 0` when the
cardinality data sums to zero series, so `totalCardinality = 0` does not
imply that no validator used the cardinality source. -/
theorem totalCardinality_zero_despite_cardinality_validator :
    (cardOnlyRule.validators.countP fun v => v.dataSource == "cardinality") = 1 ∧
    (evaluateRule noRegex cardOnlyRule zeroCountSources).toOption.map
      RuleResult.totalCardinality = some 0 :=
  ⟨rfl, rfl⟩

/-- C3 (amended): on a successful rule evaluation, `totalCardinality` equals
the number of validators on the cardinality data source times the total
series count of the cardinality data.  Hence `totalCardinality = 0`
whenever no validator used the cardinality source (in particular for a
rule whose only validator uses the labels source); the converse holds only
when the cardinality data's series sum is non-zero. -/
theorem totalCardinality_characterization (rmatch : String → String → Bool)
    (rule : RuleDefinition) (ds : DataSources) (res : RuleResult)
    (h : evaluateRule rmatch rule ds = .ok res) :
    res.totalCardinality =
      ((rule.validators.countP fun v => v.dataSource == "cardinality") : Int) * ds.cardSum ∧
    ((∀ v ∈ rule.validators, ¬v.dataSource = "cardinality") → res.totalCardinality = 0) := by
  obtain ⟨-, -, h3, -⟩ := evaluateRuleAux_ok_spec rmatch ds rule.validators _ res h
  constructor
  · simpa using h3
  · intro hnone
    have hcount : (rule.validators.countP fun v => v.dataSource == "cardinality") = 0 := by
      rw [List.countP_eq_zero]
      intro v hv
      simpa using hnone v hv
    simpa [hcount] using h3

/-- A rule whose single validator reads the labels data source. -/
def labelsOnlyRule : RuleDefinition :=
  { ruleID := "LBL-RULE", impact := "Normal",
    validators := [{ name := "lbl-check", type := "labels",
                     dataSource := "labels",
                     conditions := [{ field := "label_count", operator := "lte",
                                      value := .intVal 10 }] }] }

/-- A data-source map with one labels row and no cardinality data. -/
def labelsOnlySources : DataSources :=
  { cardinality := none, labels := some [{ metricName := "m", labels := ["a"] }] }

/-- The result of evaluating `labelsOnlyRule` over `labelsOnlySources`. -/
def labelsOnlyResult : RuleResult :=
  { ruleID := "LBL-RULE", impact := "Normal", passedChecks := 1, totalChecks := 1,
    failedChecks := [], failedMetrics := [], passedMetrics := 1, totalMetrics := 1,
    passedCardinality := 0, totalCardinality := 0 }

/-- Witness for `totalCardinality_characterization`: a rule whose only
validator uses the labels data source gets `totalCardinality = 0`. -/
theorem totalCardinality_characterization_witness :
    labelsOnlyResult.totalCardinality =
      ((labelsOnlyRule.validators.countP fun v => v.dataSource == "cardinality") : Int) *
        labelsOnlySources.cardSum ∧
    ((∀ v ∈ labelsOnlyRule.validators, ¬v.dataSource = "cardinality") →
      labelsOnlyResult.totalCardinality = 0) :=
  totalCardinality_characterization noRegex labelsOnlyRule labelsOnlySources labelsOnlyResult rfl

/-! ### C4: unknown condition fields and operators -/

/-- A rule whose single validator carries a condition with the unknown
field name `"bogus"`. -/
def unknownFieldRule : RuleDefinition :=
  { ruleID := "BAD-FIELD", impact := "Critical",
    validators := [{ name := "bad-check", type := "cardinality", dataSource := "cardinality",
                     conditions := [{ field := "bogus", operator := "eq",
                                      value := .intVal 5 }] }] }

/-- A data-source map with a single cardinality row of count 5. -/
def oneRowSources : DataSources :=
  { cardinality := some [{ metricName := "m", count := 5 }], labels := none }

/-- C4 counterexample: a condition with the unknown field `"bogus"` does not
make the rule's evaluation fail; evaluation succeeds and the metric is
silently counted as failed (`passedMetrics = 0` of `totalMetrics = 1`,
the metric attributed to the validator in `failedMetrics`). -/
theorem unknown_field_is_silent_metric_failure :
    (unknownFieldRule.validators.map fun v => v.conditions.map (·.field)) = [["bogus"]] ∧
    (evaluateRule noRegex unknownFieldRule oneRowSources).toOption.map
      (fun r => (r.passedMetrics, r.totalMetrics, r.failedMetrics)) =
      some (0, 1, [("m", "bad-check")]) :=
  ⟨rfl, rfl⟩

/-- C4 (amended): an evaluation-time error arises only from an unresolvable
data source, a validator-type/data-source mismatch, or an unknown validator
type.  A condition whose field name is unknown never raises an error: the
condition evaluates to false, so the metric silently fails; and a validator
of a known type over a matching data source always evaluates successfully,
whatever its conditions contain. -/
theorem unknown_condition_field_never_errors (rmatch : String → String → Bool) :
    (∀ (metric : CardinalityData) (conditions : List ConditionConfig),
      (∃ c ∈ conditions, c.field ≠ "count" ∧ c.field ≠ "metric_name") →
      evaluateCardinalityMetric rmatch metric conditions = false) ∧
    (∀ (metric : LabelsData) (conditions : List ConditionConfig),
      (∃ c ∈ conditions, c.field ≠ "metric_name" ∧ c.field ≠ "labels" ∧
        c.field ≠ "label_count") →
      evaluateLabelsMetric rmatch metric conditions = false) ∧
    (∀ (v : ValidatorConfig) (ds : DataSources) (rows : List CardinalityData),
      v.type = "cardinality" → ds.get v.dataSource = some (.card rows) →
      (evaluateValidatorWithStats rmatch v ds).toOption.isSome = true) ∧
    (∀ (v : ValidatorConfig) (ds : DataSources) (rows : List LabelsData),
      (v.type = "format" ∨ v.type = "labels" ∨ v.type = "label_count") →
      ds.get v.dataSource = some (.lbl rows) →
      (evaluateValidatorWithStats rmatch v ds).toOption.isSome = true) := by
  refine ⟨?_, ?_, ?_, ?_⟩
  · intro metric conditions ⟨c, hc, hf1, hf2⟩
    unfold evaluateCardinalityMetric
    rw [List.all_eq_false]
    refine ⟨c, hc, ?_⟩
    split <;> simp_all
  · intro metric conditions ⟨c, hc, hf1, hf2, hf3⟩
    unfold evaluateLabelsMetric
    rw [List.all_eq_false]
    refine ⟨c, hc, ?_⟩
    split <;> simp_all
  · intro v ds rows htype hget
    unfold evaluateValidatorWithStats
    rw [hget, htype]
    rfl
  · intro v ds rows htype hget
    unfold evaluateValidatorWithStats
    rw [hget]
    rcases htype with h | h | h <;> rw [h] <;> rfl

/-- Witness for `unknown_condition_field_never_errors`: the unknown field
`"bogus"` silently fails the metric, and the same validator still
evaluates without error. -/
theorem unknown_condition_field_never_errors_witness :
    evaluateCardinalityMetric noRegex { metricName := "m", count := 5 }
      [{ field := "bogus", operator := "eq", value := .intVal 5 }] = false ∧
    (evaluateValidatorWithStats noRegex
      { name := "bad-check", type := "cardinality", dataSource := "cardinality",
        conditions := [{ field := "bogus", operator := "eq", value := .intVal 5 }] }
      oneRowSources).toOption.isSome = true :=
  ⟨(unknown_condition_field_never_errors noRegex).1 _ _ (by decide),
   (unknown_condition_field_never_errors noRegex).2.2.1 _ oneRowSources
     [{ metricName := "m", count := 5 }] rfl rfl⟩

/-! ### C8: counter invariants of successful rule evaluation -/

/-- C8: for every successful rule evaluation over cardinality data whose
counts are all non-negative, `passedMetrics ≤ totalMetrics` and
`0 ≤ passedCardinality ≤ totalCardinality` (the metric counters are
naturals, so their non-negativity is inherent in the embedding). -/
theorem rule_result_count_invariants (rmatch : String → String → Bool)
    (rule : RuleDefinition) (ds : DataSources) (res : RuleResult)
    (hnonneg : ∀ m ∈ ds.cardRows, 0 ≤ m.count)
    (h : evaluateRule rmatch rule ds = .ok res) :
    res.passedMetrics ≤ res.totalMetrics ∧
    0 ≤ res.passedCardinality ∧ res.passedCardinality ≤ res.totalCardinality := by
  obtain ⟨-, -, -, h4⟩ := evaluateRuleAux_ok_spec rmatch ds rule.validators _ res h
  obtain ⟨g1, g2, g3⟩ := h4 hnonneg
  exact ⟨g1 (by simp), g2 (by simp), g3 (by simp) (by simp)⟩

/-- A mixed rule: one cardinality validator (count must stay below 10) and
one labels validator (labels must not contain `"secret"`). -/
def mixedRule : RuleDefinition :=
  { ruleID := "MIX-RULE", impact := "Important",
    validators :=
      [{ name := "low-card", type := "cardinality", dataSource := "cardinality",
         conditions := [{ field := "count", operator := "lt", value := .intVal 10 }] },
       { name := "no-secret", type := "labels", dataSource := "labels",
         conditions := [{ field := "labels", operator := "not_contains",
                          value := .str "secret" }] }] }

/-- Data for `mixedRule`: two cardinality rows (counts 7 and 20) and one
labels row carrying a `"secret"` label. -/
def mixedSources : DataSources :=
  { cardinality := some [{ metricName := "m1", count := 7 }, { metricName := "m2", count := 20 }],
    labels := some [{ metricName := "m1", labels := ["secret_key"] }] }

/-- The result of evaluating `mixedRule` over `mixedSources`. -/
def mixedResult : RuleResult :=
  { ruleID := "MIX-RULE", impact := "Important", passedChecks := 2, totalChecks := 2,
    failedChecks := ["low-card", "no-secret"],
    failedMetrics := [("m2", "low-card"), ("m1", "no-secret")],
    passedMetrics := 1, totalMetrics := 3,
    passedCardinality := 7, totalCardinality := 27 }

/-- Witness for `rule_result_count_invariants` on `mixedRule`. -/
theorem rule_result_count_invariants_witness :
    mixedResult.passedMetrics ≤ mixedResult.totalMetrics ∧
    0 ≤ mixedResult.passedCardinality ∧
    mixedResult.passedCardinality ≤ mixedResult.totalCardinality :=
  rule_result_count_invariants noRegex mixedRule mixedSources mixedResult (by decide) rfl

/-! ### C10: passedChecks always equals totalChecks -/

/-- C10: every successful rule evaluation returns
`passedChecks = totalChecks = number of validators`, regardless of how many
metrics failed — `PassedChecks` is incremented unconditionally for each
validator, so it never reflects validator failures even when
`failedChecks` is non-empty. -/
theorem passedChecks_always_equals_totalChecks (rmatch : String → String → Bool)
    (rule : RuleDefinition) (ds : DataSources) (res : RuleResult)
    (h : evaluateRule rmatch rule ds = .ok res) :
    res.passedChecks = res.totalChecks ∧ res.totalChecks = rule.validators.length := by
  obtain ⟨h1, h2, -, -⟩ := evaluateRuleAux_ok_spec rmatch ds rule.validators _ res h
  refine ⟨?_, ?_⟩ <;> simp [h1, h2]

/-- Witness for `passedChecks_always_equals_totalChecks` on `mixedRule`
evaluated over `mixedSources`: both validators record failures
(`failedChecks = ["low-card", "no-secret"]`), yet
`passedChecks = totalChecks = 2`. -/
theorem passedChecks_always_equals_totalChecks_witness :
    (mixedResult.passedChecks = mixedResult.totalChecks ∧
      mixedResult.totalChecks = mixedRule.validators.length) ∧
    mixedResult.failedChecks = ["low-card", "no-secret"] :=
  ⟨passedChecks_always_equals_totalChecks noRegex mixedRule mixedSources mixedResult rfl, rfl⟩

/-! ### Collection orchestration (`internal/collectors/collector.go`)

The two concurrency pools only bound parallelism; every task writes exactly
its own job's outcome to the mutex-guarded accumulator, so the accumulated
collections are a function of the per-task outcomes.  The embedding fixes
the textual order of the input lists (the source guarantees no order). -/

/-- Embeds `collectors.JobMetricData`: the cardinality is the raw string returned
by the query client; `labelCardinality` is the optional per-label map
(`none` for Go's nil map), kept as an association list. -/
structure JobMetricDataC where
  job : String
  metricName : String
  labels : List String
  cardinality : String
  labelCardinality : Option (List (String × Int))
deriving DecidableEq, Repr

/-- Embeds `collectors.ErrorRecord` (the wall-clock timestamp is omitted). -/
structure ErrorRecord where
  metricName : String
  operation : String
  message : String
deriving DecidableEq, Repr

/-- The remote calls `getJobMetricDataForMetric` performs, as oracles over
the `PrometheusClient`; each call either yields a value or fails. -/
structure FetchOracle where
  getJobsForMetric : String → Except String (List String)
  getCardinality : String → String → Except String String
  getLabels : String → String → Except String (List String)
  getLabelCardinality : String → String → List String → Except String (List (String × Int))

/-- Embeds `(*Collector).getJobMetricDataForMetric`: fetch the job list (an error
aborts the metric); then, per job, fetch cardinality and labels — a failure
of either silently drops that job (no record, no error entry); finally,
when label-cardinality collection is on and the job has labels, attach the
per-label map, degrading to `none` on failure.  (The source's early return
for an empty job list also produces an empty record list.) -/
def getJobMetricDataForMetric (c : FetchOracle) (collectLabelCardinality : Bool)
    (metricName : String) : Except String (List JobMetricDataC) :=
  match c.getJobsForMetric metricName with
  | .error e => .error e
  | .ok jobNames =>
    let basicData := jobNames.filterMap fun job =>
      match c.getCardinality metricName job with
      | .error _ => none
      | .ok cardinality =>
        match c.getLabels metricName job with
        | .error _ => none
        | .ok labels => some (job, cardinality, labels)
    .ok (basicData.map fun bd =>
      { job := bd.1, metricName := metricName, labels := bd.2.2, cardinality := bd.2.1,
        labelCardinality :=
          if collectLabelCardinality && !bd.2.2.isEmpty then
            (c.getLabelCardinality metricName bd.1 bd.2.2).toOption
          else none })

/-- One iteration of the metric loop in `fetchJobMetricData`: a failed
metric appends an error record tagged `fetch_job_data`; a successful one
appends its job records. -/
def collectStep (c : FetchOracle) (collectLabelCardinality : Bool)
    (acc : List JobMetricDataC × List ErrorRecord) (metric : String) :
    List JobMetricDataC × List ErrorRecord :=
  match getJobMetricDataForMetric c collectLabelCardinality metric with
  | .error e => (acc.1, acc.2 ++ [⟨metric, "fetch_job_data", e⟩])
  | .ok jobData => (if jobData.length > 0 then acc.1 ++ jobData else acc.1, acc.2)

/-- Embeds `(*Collector).fetchJobMetricData`. -/
def fetchJobMetricData (c : FetchOracle) (collectLabelCardinality : Bool)
    (metricNames : List String) : List JobMetricDataC × List ErrorRecord :=
  metricNames.foldl (collectStep c collectLabelCardinality) ([], [])

lemma fetchJobMetricData_foldl_spec (c : FetchOracle) (lc : Bool) :
    ∀ (ms : List String) (accD : List JobMetricDataC) (accE : List ErrorRecord),
      ms.foldl (collectStep c lc) (accD, accE) =
        (accD ++ ms.flatMap fun m => (getJobMetricDataForMetric c lc m).toOption.getD [],
         accE ++ ms.filterMap fun m =>
           match getJobMetricDataForMetric c lc m with
           | .error e => some ⟨m, "fetch_job_data", e⟩
           | .ok _ => none) := by
  intro ms
  induction ms with
  | nil => intro accD accE; simp
  | cons m rest ih =>
    intro accD accE
    rw [List.foldl_cons]
    cases hm : getJobMetricDataForMetric c lc m with
    | error e =>
      rw [show collectStep c lc (accD, accE) m = (accD, accE ++ [⟨m, "fetch_job_data", e⟩]) by
        simp [collectStep, hm]]
      rw [ih]
      simp [List.flatMap_cons, List.filterMap_cons, hm, Except.toOption]
    | ok jobData =>
      rw [show collectStep c lc (accD, accE) m =
          (if jobData.length > 0 then accD ++ jobData else accD, accE) by
        simp [collectStep, hm]]
      rw [ih]
      by_cases hlen : jobData.length > 0
      · simp [List.flatMap_cons, List.filterMap_cons, hm, hlen, Except.toOption,
          List.append_assoc]
      · have hnil : jobData = [] := List.length_eq_zero.mp (by omega)
        subst hnil
        simp [List.flatMap_cons, List.filterMap_cons, hm, Except.toOption]

/-- An oracle under which metric `"m"` has one job `"j"` whose cardinality
fetch fails. -/
def dropOracle : FetchOracle :=
  { getJobsForMetric := fun _ => .ok ["j"]
    getCardinality := fun _ _ => .error "cardinality query failed"
    getLabels := fun _ _ => .ok ["a"]
    getLabelCardinality := fun _ _ _ => .error "unused" }

/-- C5 counterexample: job `"j"` is discovered for metric `"m"`, its
cardinality fetch fails, and the collection run produces neither a record
for `(j, m)` nor any error entry — the per-job failure is silently
dropped, contradicting the record-xor-error claim. -/
theorem per_job_failure_yields_neither_record_nor_error :
    dropOracle.getJobsForMetric "m" = .ok ["j"] ∧
    dropOracle.getCardinality "m" "j" = .error "cardinality query failed" ∧
    fetchJobMetricData dropOracle false ["m"] = ([], []) :=
  ⟨rfl, rfl, rfl⟩

/-- C5 (amended): the error list contains exactly one `fetch_job_data` entry
per metric whose job-list fetch failed; the record list is the
concatenation of the per-metric record lists; and for a metric whose job
list succeeds, the records are exactly the discovered jobs whose
cardinality and labels fetches both succeed — a job for which either fetch
fails yields neither a record nor an error entry, while sibling jobs and
other metrics are unaffected. -/
theorem collection_record_error_accounting (c : FetchOracle) (lc : Bool)
    (metricNames : List String) :
    (fetchJobMetricData c lc metricNames).2 =
      (metricNames.filterMap fun m =>
        match getJobMetricDataForMetric c lc m with
        | .error e => some ⟨m, "fetch_job_data", e⟩
        | .ok _ => none) ∧
    (fetchJobMetricData c lc metricNames).1 =
      (metricNames.flatMap fun m => (getJobMetricDataForMetric c lc m).toOption.getD []) ∧
    (∀ m jobs, c.getJobsForMetric m = .ok jobs →
      (getJobMetricDataForMetric c lc m).toOption.map (List.map fun r => (r.job, r.metricName)) =
        some ((jobs.filter fun j =>
          (c.getCardinality m j).toOption.isSome && (c.getLabels m j).toOption.isSome).map
          fun j => (j, m))) := by
  refine ⟨?_, ?_, ?_⟩
  · rw [fetchJobMetricData, fetchJobMetricData_foldl_spec]; simp
  · rw [fetchJobMetricData, fetchJobMetricData_foldl_spec]; simp
  · intro m jobs hjobs
    unfold getJobMetricDataForMetric
    rw [hjobs]
    clear hjobs
    simp only [Except.toOption, Option.map_some', Option.some.injEq, List.map_map]
    induction jobs with
    | nil => simp
    | cons j rest ihj =>
      rw [List.filterMap_cons, List.filter_cons]
      cases hcard : c.getCardinality m j with
      | error e => simpa [hcard, Except.toOption] using ihj
      | ok card =>
        cases hlbl : c.getLabels m j with
        | error e => simpa [hcard, hlbl, Except.toOption] using ihj
        | ok lbls =>
          simpa [hcard, hlbl, Except.toOption] using ihj

/-- An oracle where metric `"bad"` has no job list, `"good"` has one fully
fetchable job. -/
def mixedOracle : FetchOracle :=
  { getJobsForMetric := fun m => if m == "bad" then .error "boom" else .ok ["j"]
    getCardinality := fun _ _ => .ok "7"
    getLabels := fun _ _ => .ok ["a"]
    getLabelCardinality := fun _ _ _ => .error "unused" }

/-- Witness for `collection_record_error_accounting` on `mixedOracle` over
metrics `["bad", "good"]`. -/
theorem collection_record_error_accounting_witness :
    (fetchJobMetricData mixedOracle false ["bad", "good"]).2 =
      (["bad", "good"].filterMap fun m =>
        match getJobMetricDataForMetric mixedOracle false m with
        | .error e => some ⟨m, "fetch_job_data", e⟩
        | .ok _ => none) ∧
    (fetchJobMetricData mixedOracle false ["bad", "good"]).1 =
      (["bad", "good"].flatMap fun m =>
        (getJobMetricDataForMetric mixedOracle false m).toOption.getD []) ∧
    (∀ m jobs, mixedOracle.getJobsForMetric m = .ok jobs →
      (getJobMetricDataForMetric mixedOracle false m).toOption.map
          (List.map fun r => (r.job, r.metricName)) =
        some ((jobs.filter fun j =>
          (mixedOracle.getCardinality m j).toOption.isSome &&
            (mixedOracle.getLabels m j).toOption.isSome).map fun j => (j, m))) :=
  collection_record_error_accounting mixedOracle false ["bad", "good"]

/-! ### Remote query client (`internal/collectors/prometheus.go`) -/

/-- The outcome of one transport attempt (`c.Client.Do(req)`): a
network-level failure or an HTTP response with a status code (response
bodies are abstracted; they only feed error messages and JSON decoding). -/
inductive AttemptOutcome where
  | netErr (msg : String)
  | resp (status : Nat)
deriving DecidableEq, Repr

/-- What `doRequestWithRetry` observably does: how many transport attempts
it made, the backoff sleeps (in seconds) it performed before retries, and
what it handed back to the caller (`.error` for a network failure with
exhausted budget, `.ok status` for a delivered response — also non-2xx
ones). -/
structure RetryTrace where
  attemptsUsed : Nat
  sleeps : List Nat
  result : Except String Nat
deriving Repr

/-- The conditions under which `doRequestWithRetry` will try again:
a network failure or a 502/503/504 response. -/
def retryableOutcome : AttemptOutcome → Bool
  | .netErr _ => true
  | .resp s => s == 502 || s == 503 || s == 504

/-- A 2xx response (returned immediately by the retry loop). -/
def is2xx : AttemptOutcome → Bool
  | .netErr _ => false
  | .resp s => 200 ≤ s && s < 300

/-- The loop body of `doRequestWithRetry`, starting at absolute attempt
index `attempt` with `remaining` further attempts allowed
(`remaining = RetryCount - attempt`); `attempts` gives the outcome of each
transport attempt.  Before every attempt with index > 0 the loop sleeps
`attempt` seconds. -/
def doRequestWithRetryGo (attempts : Nat → AttemptOutcome) : Nat → Nat → RetryTrace
  | attempt, remaining =>
    let sleepsHere : List Nat := if 0 < attempt then [attempt] else []
    match attempts attempt with
    | .netErr msg =>
      match remaining with
      | 0 => { attemptsUsed := 1, sleeps := sleepsHere, result := .error msg }
      | r + 1 =>
        let t := doRequestWithRetryGo attempts (attempt + 1) r
        { attemptsUsed := t.attemptsUsed + 1, sleeps := sleepsHere ++ t.sleeps,
          result := t.result }
    | .resp status =>
      if 200 ≤ status ∧ status < 300 then
        { attemptsUsed := 1, sleeps := sleepsHere, result := .ok status }
      else if status = 502 ∨ status = 503 ∨ status = 504 then
        match remaining with
        | 0 => { attemptsUsed := 1, sleeps := sleepsHere, result := .ok status }
        | r + 1 =>
          let t := doRequestWithRetryGo attempts (attempt + 1) r
          { attemptsUsed := t.attemptsUsed + 1, sleeps := sleepsHere ++ t.sleeps,
            result := t.result }
      else { attemptsUsed := 1, sleeps := sleepsHere, result := .ok status }

/-- Embeds `(*PrometheusClient).doRequestWithRetry` with retry budget
`retryCount` (`c.RetryCount`). -/
def doRequestWithRetry (retryCount : Nat) (attempts : Nat → AttemptOutcome) : RetryTrace :=
  doRequestWithRetryGo attempts 0 retryCount

/-- The `RetryCount` installed by `NewPrometheusClient`. -/
def defaultRetryCount : Nat := 2

/-- The fixed cooldown (seconds) slept on an HTTP 429 before returning the
error (`time.Sleep(2 * time.Second)` in each status-checking query). -/
def rateLimitCooldownSeconds : Nat := 2

/-- The observable behaviour of one whole client query: transport attempts
and backoff sleeps of the retry loop, the number of fixed 429-cooldown
sleeps performed afterwards, and the value or error delivered. -/
structure QueryTrace (α : Type) where
  attemptsUsed : Nat
  sleeps : List Nat
  cooldownSleeps : Nat
  result : Except String α
deriving Repr

/-- Embeds `(*PrometheusClient).GetCardinality` after the request: a network-level
error is passed through; a non-200 status becomes an error message (after
sleeping the fixed cooldown once if the status is 429); a 200 response
yields the parsed count string `parsedValue` (body parsing abstracted). -/
def GetCardinality (retryCount : Nat) (attempts : Nat → AttemptOutcome)
    (parsedValue : String) : QueryTrace String :=
  let t := doRequestWithRetry retryCount attempts
  match t.result with
  | .error e => ⟨t.attemptsUsed, t.sleeps, 0, .error e⟩
  | .ok status =>
    if status ≠ 200 then
      ⟨t.attemptsUsed, t.sleeps, if status = 429 then 1 else 0,
        .error ("HTTP " ++ toString status ++ " - cardinality query")⟩
    else ⟨t.attemptsUsed, t.sleeps, 0, .ok parsedValue⟩

/-- Embeds `(*PrometheusClient).GetAllMetricNames` after the request: the source
never inspects the status code — it decodes the body into `{Data []string}`
whatever the status was (`decodeBody` abstracts `json.Decode`, which
ignores unknown fields such as `error`). -/
def GetAllMetricNames (retryCount : Nat) (attempts : Nat → AttemptOutcome)
    (decodeBody : Except String (List String)) : QueryTrace (List String) :=
  let t := doRequestWithRetry retryCount attempts
  match t.result with
  | .error e => ⟨t.attemptsUsed, t.sleeps, 0, .error e⟩
  | .ok _ =>
    match decodeBody with
    | .error e => ⟨t.attemptsUsed, t.sleeps, 0, .error e⟩
    | .ok names => ⟨t.attemptsUsed, t.sleeps, 0, .ok names⟩

/-- A backend that always answers HTTP 429. -/
def always429 : Nat → AttemptOutcome := fun _ => .resp 429

/-- C6 counterexample: `GetAllMetricNames` is a remote query that never
checks the HTTP status, so on a 429 response it performs no cooldown sleep
and does not return an error — with the tolerant JSON decode of the error
body (unknown fields ignored, `Data` absent) it returns an empty name list
successfully.  The claim's "every remote query … sleeps … and returns an
error" therefore fails on this query. -/
theorem get_all_metric_names_ignores_429 :
    (GetAllMetricNames 2 always429 (.ok [])).cooldownSleeps = 0 ∧
    (GetAllMetricNames 2 always429 (.ok [])).result = .ok [] ∧
    (GetAllMetricNames 2 always429 (.ok [])).attemptsUsed = 1 :=
  ⟨rfl, rfl, rfl⟩

/-- C6 (amended): for the status-checking queries (modelled by
`GetCardinality`; `GetJobsForMetric`, both `GetLabels` paths and
`GetLabelCardinality` share the identical status-handling block), a 429 on
the first attempt ends the retry loop at once — one transport attempt, no
backoff sleeps, whatever the retry budget — then the client sleeps the
fixed cooldown once and returns an error; 429 is not a retryable status.
`GetAllMetricNames` alone ignores the status entirely (see the
counterexample). -/
theorem rate_limit_aborts_query_without_retry (rc : Nat) (f : Nat → AttemptOutcome)
    (v : String) (h : f 0 = .resp 429) :
    (GetCardinality rc f v).attemptsUsed = 1 ∧
    (GetCardinality rc f v).sleeps = [] ∧
    (GetCardinality rc f v).cooldownSleeps = 1 ∧
    (∃ e, (GetCardinality rc f v).result = .error e) ∧
    retryableOutcome (.resp 429) = false := by
  have hloop : doRequestWithRetry rc f = { attemptsUsed := 1, sleeps := [], result := .ok 429 } := by
    unfold doRequestWithRetry doRequestWithRetryGo
    rw [h]
    norm_num
  unfold GetCardinality
  rw [hloop]
  exact ⟨rfl, rfl, rfl, ⟨_, rfl⟩, rfl⟩

/-- Witness for `rate_limit_aborts_query_without_retry` with the default
retry budget against `always429`. -/
theorem rate_limit_aborts_query_without_retry_witness :
    (GetCardinality defaultRetryCount always429 "7").attemptsUsed = 1 ∧
    (GetCardinality defaultRetryCount always429 "7").sleeps = [] ∧
    (GetCardinality defaultRetryCount always429 "7").cooldownSleeps = 1 ∧
    (∃ e, (GetCardinality defaultRetryCount always429 "7").result = .error e) ∧
    retryableOutcome (.resp 429) = false :=
  rate_limit_aborts_query_without_retry defaultRetryCount always429 "7" rfl

lemma filter_pos_range'_one (a : Nat) :
    (List.range' a 1).filter (fun x => decide (0 < x)) = if 0 < a then [a] else [] := by
  by_cases h : 0 < a <;> simp [List.range'_succ, h]

lemma filter_pos_range'_succ (a n : Nat) :
    (List.range' a (n + 1)).filter (fun x => decide (0 < x)) =
      (if 0 < a then [a] else []) ++ (List.range' (a + 1) n).filter (fun x => decide (0 < x)) := by
  by_cases h : 0 < a <;> simp [List.range'_succ, List.filter_cons, h]

lemma filter_pos_range_zero (u : Nat) :
    (List.range' 0 u).filter (fun x => decide (0 < x)) = (List.range (u - 1)).map (· + 1) := by
  cases u with
  | zero => simp
  | succ n =>
    rw [filter_pos_range'_succ]
    have hall : (List.range' 1 n).filter (fun x => decide (0 < x)) = List.range' 1 n := by
      rw [List.filter_eq_self]
      intro x hx
      have := List.mem_range'_1.mp hx
      simp only [decide_eq_true_eq]
      omega
    rw [if_neg (by omega), hall, List.range'_eq_map_range]
    simp only [List.nil_append, Nat.add_sub_cancel]
    exact List.map_congr_left fun x _ => Nat.add_comm 1 x

/-- The full behavioural invariant of the retry loop, from any absolute
attempt index `a` with `r` further attempts allowed. -/
lemma doRequestWithRetryGo_spec (f : Nat → AttemptOutcome) :
    ∀ (r a : Nat),
      1 ≤ (doRequestWithRetryGo f a r).attemptsUsed ∧
      (doRequestWithRetryGo f a r).attemptsUsed ≤ r + 1 ∧
      (∀ i, i + 1 < (doRequestWithRetryGo f a r).attemptsUsed →
        retryableOutcome (f (a + i)) = true) ∧
      (doRequestWithRetryGo f a r).sleeps =
        (List.range' a (doRequestWithRetryGo f a r).attemptsUsed).filter
          (fun x => decide (0 < x)) ∧
      (∀ i, i < (doRequestWithRetryGo f a r).attemptsUsed → is2xx (f (a + i)) = true →
        (doRequestWithRetryGo f a r).attemptsUsed = i + 1 ∧
        ∃ s, f (a + i) = .resp s ∧ (doRequestWithRetryGo f a r).result = .ok s) := by
  intro r
  induction r with
  | zero =>
    intro a
    cases hfa : f a with
    | netErr msg =>
      have hred : doRequestWithRetryGo f a 0 =
          { attemptsUsed := 1, sleeps := if 0 < a then [a] else [],
            result := .error msg } := by
        conv_lhs => rw [doRequestWithRetryGo]
        rw [hfa]
      rw [hred]
      refine ⟨by simp, by simp, fun i hi => by simp at hi, ?_, fun i hi h2 => ?_⟩
      · by_cases hpos : 0 < a <;> simp [hpos, List.filter_cons]
      · simp at hi
        subst hi
        simp [Nat.add_zero, hfa, is2xx] at h2
    | resp s =>
      by_cases h2xx : 200 ≤ s ∧ s < 300
      · have hred : doRequestWithRetryGo f a 0 =
            { attemptsUsed := 1, sleeps := if 0 < a then [a] else [],
              result := .ok s } := by
          conv_lhs => rw [doRequestWithRetryGo]
          rw [hfa]
          simp only [if_pos h2xx]
        rw [hred]
        refine ⟨by simp, by simp, fun i hi => by simp at hi, ?_, fun i hi h2 => ?_⟩
        · by_cases hpos : 0 < a <;> simp [hpos, List.filter_cons]
        · simp at hi
          subst hi
          exact ⟨by simp, s, by simpa using hfa, by simp⟩
      · have hred : doRequestWithRetryGo f a 0 =
            { attemptsUsed := 1, sleeps := if 0 < a then [a] else [],
              result := .ok s } := by
          conv_lhs => rw [doRequestWithRetryGo]
          rw [hfa]
          by_cases h5xx : s = 502 ∨ s = 503 ∨ s = 504
          · simp only [if_neg h2xx, if_pos h5xx]
          · simp only [if_neg h2xx, if_neg h5xx]
        rw [hred]
        refine ⟨by simp, by simp, fun i hi => by simp at hi, ?_, fun i hi h2 => ?_⟩
        · by_cases hpos : 0 < a <;> simp [hpos, List.filter_cons]
        · simp at hi
          subst hi
          simp only [Nat.add_zero, hfa, is2xx] at h2
          exact absurd (by simpa using h2) h2xx
  | succ r ih =>
    intro a
    cases hfa : f a with
    | netErr msg =>
      have hred : doRequestWithRetryGo f a (r + 1) =
          { attemptsUsed := (doRequestWithRetryGo f (a + 1) r).attemptsUsed + 1,
            sleeps := (if 0 < a then [a] else []) ++ (doRequestWithRetryGo f (a + 1) r).sleeps,
            result := (doRequestWithRetryGo f (a + 1) r).result } := by
        conv_lhs => rw [doRequestWithRetryGo]
        rw [hfa]
      obtain ⟨g1, g2, g3, g4, g5⟩ := ih (a + 1)
      rw [hred]
      refine ⟨by simp, by simp; omega, fun i hi => ?_, ?_, fun i hi h2 => ?_⟩
      · cases i with
        | zero => simp [hfa, retryableOutcome]
        | succ j =>
          simp only at hi
          have := g3 j (by simp at hi; omega)
          simpa [Nat.add_assoc, Nat.add_comm 1 j] using this
      · simp only [RetryTrace.sleeps, RetryTrace.attemptsUsed]
        rw [g4, filter_pos_range'_succ]
      · cases i with
        | zero =>
          simp [Nat.add_zero, hfa, is2xx] at h2
        | succ j =>
          obtain ⟨e1, s, e2, e3⟩ := g5 j (by simp at hi; omega)
            (by simpa [Nat.add_assoc, Nat.add_comm 1 j] using h2)
          refine ⟨by simp; omega, s, by simpa [Nat.add_assoc, Nat.add_comm 1 j] using e2,
            by simpa using e3⟩
    | resp st =>
      by_cases h2xx : 200 ≤ st ∧ st < 300
      · have hred : doRequestWithRetryGo f a (r + 1) =
            { attemptsUsed := 1, sleeps := if 0 < a then [a] else [],
              result := .ok st } := by
          conv_lhs => rw [doRequestWithRetryGo]
          rw [hfa]
          simp only [if_pos h2xx]
        rw [hred]
        refine ⟨by simp, by simp, fun i hi => by simp at hi, ?_, fun i hi h2 => ?_⟩
        · by_cases hpos : 0 < a <;> simp [hpos, List.filter_cons]
        · simp at hi
          subst hi
          exact ⟨by simp, st, by simpa using hfa, by simp⟩
      · by_cases h5xx : st = 502 ∨ st = 503 ∨ st = 504
        · have hred : doRequestWithRetryGo f a (r + 1) =
              { attemptsUsed := (doRequestWithRetryGo f (a + 1) r).attemptsUsed + 1,
                sleeps :=
                  (if 0 < a then [a] else []) ++ (doRequestWithRetryGo f (a + 1) r).sleeps,
                result := (doRequestWithRetryGo f (a + 1) r).result } := by
            conv_lhs => rw [doRequestWithRetryGo]
            rw [hfa]
            simp only [if_neg h2xx, if_pos h5xx]
          obtain ⟨g1, g2, g3, g4, g5⟩ := ih (a + 1)
          rw [hred]
          refine ⟨by simp, by simp; omega, fun i hi => ?_, ?_, fun i hi h2 => ?_⟩
          · cases i with
            | zero =>
              rcases h5xx with h | h | h <;> simp [hfa, retryableOutcome, h]
            | succ j =>
              have := g3 j (by simp at hi; omega)
              simpa [Nat.add_assoc, Nat.add_comm 1 j] using this
          · simp only [RetryTrace.sleeps, RetryTrace.attemptsUsed]
            rw [g4, filter_pos_range'_succ]
          · cases i with
            | zero =>
              simp only [Nat.add_zero, hfa, is2xx] at h2
              exact absurd (by simpa using h2) h2xx
            | succ j =>
              obtain ⟨e1, s, e2, e3⟩ := g5 j (by simp at hi; omega)
                (by simpa [Nat.add_assoc, Nat.add_comm 1 j] using h2)
              refine ⟨by simp; omega, s, by simpa [Nat.add_assoc, Nat.add_comm 1 j] using e2,
                by simpa using e3⟩
        · have hred : doRequestWithRetryGo f a (r + 1) =
              { attemptsUsed := 1, sleeps := if 0 < a then [a] else [],
                result := .ok st } := by
            conv_lhs => rw [doRequestWithRetryGo]
            rw [hfa]
            simp only [if_neg h2xx, if_neg h5xx]
          rw [hred]
          refine ⟨by simp, by simp, fun i hi => by simp at hi, ?_, fun i hi h2 => ?_⟩
          · by_cases hpos : 0 < a <;> simp [hpos, List.filter_cons]
          · simp at hi
            subst hi
            simp only [Nat.add_zero, hfa, is2xx] at h2
            exact absurd (by simpa using h2) h2xx

/-- C7: the retry loop makes at most `R + 1` transport attempts (where `R`
is the configured retry count, default 2); attempt `k + 1` happens only
when attempt `k` was a network failure or a 502/503/504 response; the
backoff sleeps are exactly `1, 2, …` seconds, one before each retry,
growing linearly with the attempt number; and a 2xx response at any
reached attempt ends the loop immediately with that response. -/
theorem retry_loop_bounds (rc : Nat) (f : Nat → AttemptOutcome) :
    1 ≤ (doRequestWithRetry rc f).attemptsUsed ∧
    (doRequestWithRetry rc f).attemptsUsed ≤ rc + 1 ∧
    (∀ k, k + 1 < (doRequestWithRetry rc f).attemptsUsed → retryableOutcome (f k) = true) ∧
    (doRequestWithRetry rc f).sleeps =
      (List.range ((doRequestWithRetry rc f).attemptsUsed - 1)).map (· + 1) ∧
    (∀ k, k < (doRequestWithRetry rc f).attemptsUsed → is2xx (f k) = true →
      (doRequestWithRetry rc f).attemptsUsed = k + 1 ∧
      ∃ s, f k = .resp s ∧ (doRequestWithRetry rc f).result = .ok s) ∧
    defaultRetryCount = 2 := by
  obtain ⟨g1, g2, g3, g4, g5⟩ := doRequestWithRetryGo_spec f rc 0
  exact ⟨g1, g2, fun k hk => by simpa using g3 k hk,
    by rw [show doRequestWithRetry rc f = doRequestWithRetryGo f 0 rc from rfl, g4,
      filter_pos_range_zero],
    fun k hk h2 => by simpa using g5 k hk (by simpa using h2), rfl⟩

/-- A backend that fails twice at the network level, then answers 200. -/
def flaky : Nat → AttemptOutcome := fun k => if k < 2 then .netErr "refused" else .resp 200

/-- Witness for `retry_loop_bounds` on `flaky` with the default retry
count: three attempts, sleeps `[1, 2]`, final result 200. -/
theorem retry_loop_bounds_witness :
    1 ≤ (doRequestWithRetry defaultRetryCount flaky).attemptsUsed ∧
    (doRequestWithRetry defaultRetryCount flaky).attemptsUsed = 3 ∧
    (doRequestWithRetry defaultRetryCount flaky).sleeps = [1, 2] ∧
    (doRequestWithRetry defaultRetryCount flaky).result = .ok 200 :=
  ⟨(retry_loop_bounds defaultRetryCount flaky).1, rfl, rfl, rfl⟩

/-! ### Record files (`WritePerJobFiles` / `LoadJobMetricReport`) -/

/-- Embeds `loaders.JobMetricData` — a record parsed back from a per-job file;
the per-label cardinality map is kept as an association list
(`none` for Go's nil map). -/
structure JobMetricDataL where
  job : String
  metricName : String
  labels : List String
  cardinality : Int
  labelCardinality : Option (List (String × Int))
deriving DecidableEq, Repr

/-- The `LABEL_CARDINALITY` cell parser of `LoadJobMetricReport`:
comma-separated `name:count` pairs; malformed pairs are skipped. -/
def parseLabelCardinality (s : String) : List (String × Int) :=
  (goSplit ',' s).filterMap fun part =>
    match goSplit ':' part with
    | [k, v] => (goParseInt (goTrimSpace v)).map fun n => (goTrimSpace k, n)
    | _ => none

/-- The label-cell cleanup shared by the loaders: split on commas, trim,
drop empties. -/
def cleanLabels (labelsStr : String) : List String :=
  (goSplit ',' labelsStr).filterMap fun label =>
    if goTrimSpace label = "" then none else some (goTrimSpace label)

/-- One iteration of `LoadJobMetricReport`'s scanner loop: `none` when the
line is skipped (blank, `#`-comment, fewer than four cells, or a
non-numeric cardinality cell). -/
def parseJobMetricLine (rawLine : String) : Option JobMetricDataL :=
  let line := goTrimSpace rawLine
  if line = "" ∨ goStartsWith line "#" then none
  else
    let parts := goSplit '|' line
    if parts.length < 4 then none
    else
      match goParseInt (goTrimSpace (parts.getD 3 "")) with
      | none => none
      | some cardinality =>
        some { job := goTrimSpace (parts.getD 0 "")
               metricName := goTrimSpace (parts.getD 1 "")
               labels := cleanLabels (goTrimSpace (parts.getD 2 ""))
               cardinality := cardinality
               labelCardinality :=
                 if 5 ≤ parts.length ∧ goTrimSpace (parts.getD 4 "") ≠ "" then
                   some (parseLabelCardinality (goTrimSpace (parts.getD 4 "")))
                 else none }

/-- Embeds `loaders.LoadJobMetricReport` over the file's lines: the first line
(the header) is skipped unconditionally. -/
def LoadJobMetricReport (lines : List String) : List JobMetricDataL :=
  match lines with
  | [] => []
  | _header :: rest => rest.filterMap parseJobMetricLine

/-- The `LABEL_CARDINALITY` cell `WritePerJobFiles` writes: empty for a nil
or empty map, otherwise `label:count` pairs joined by commas in the order
of the record's label list, including only labels present in the map. -/
def labelCardinalityStr (d : JobMetricDataC) : String :=
  match d.labelCardinality with
  | none => ""
  | some lc =>
    if lc.length > 0 then
      goJoin "," (d.labels.filterMap fun label =>
        (lc.lookup label).map fun count => label ++ ":" ++ toString count)
    else ""

/-- One data line written by `WritePerJobFiles`. -/
def recordLine (d : JobMetricDataC) : String :=
  d.job ++ "|" ++ d.metricName ++ "|" ++ goJoin "," d.labels ++ "|" ++ d.cardinality ++ "|" ++
    labelCardinalityStr d

/-- The header line written into every per-job file. -/
def perJobFileHeader : String := "JOB|METRIC_NAME|LABELS|CARDINALITY|LABEL_CARDINALITY"

/-- The content, as lines, that `WritePerJobFiles` writes for job
`jobName`: the header, then one line per record of that job in input
order.  (The file system itself — name sanitisation, creation failures and
the skipped-job bookkeeping — is abstracted: each job's content is keyed
by its raw name.) -/
def writePerJobFile (jobName : String) (allData : List JobMetricDataC) : List String :=
  perJobFileHeader :: (allData.filter fun d => d.job == jobName).map recordLine

/-- A cell safe for the pipe-delimited format: ASCII, no `|`, and no
whitespace anywhere (so `TrimSpace` leaves it unchanged). -/
def cleanField (s : String) : Bool :=
  s.data.all fun ch => ch.toNat < 128 && !goIsSpace ch && !(ch == '|')

/-- A label safe for the format: a clean cell that is non-empty and
contains no comma. -/
def cleanLabel (s : String) : Bool :=
  cleanField s && !s.isEmpty && !s.data.contains ','

lemma string_mk_data (s : String) : String.mk s.data = s := rfl

lemma cleanField_spec (s : String) (h : cleanField s = true) :
    '|' ∉ s.data ∧ ∀ c ∈ s.data, goIsSpace c = false := by
  rw [cleanField, List.all_eq_true] at h
  refine ⟨fun hmem => ?_, fun c hc => ?_⟩
  · simpa using h _ hmem
  · have := h c hc
    simp only [Bool.and_eq_true, Bool.not_eq_true'] at this
    exact this.1.2

lemma splitCharList_no_sep (sep : Char) (l : List Char) (h : sep ∉ l) :
    splitCharList sep l = [l] := by
  induction l with
  | nil => rfl
  | cons c t ih =>
    have hc : ¬c == sep := by simp; rintro rfl; exact h (by simp)
    rw [splitCharList, if_neg hc, ih fun hmem => h (by simp [hmem])]

lemma splitCharList_append (sep : Char) (l1 l2 : List Char) (h : sep ∉ l1) :
    splitCharList sep (l1 ++ sep :: l2) = l1 :: splitCharList sep l2 := by
  induction l1 with
  | nil => simp [splitCharList]
  | cons c t ih =>
    have hc : ¬c == sep := by simp; rintro rfl; exact h (by simp)
    rw [List.cons_append, splitCharList, if_neg hc,
      ih fun hmem => h (by simp [hmem])]

lemma goTrimSpace_eq_self (s : String) (h : ∀ c ∈ s.data, goIsSpace c = false) :
    goTrimSpace s = s := by
  have drop_self : ∀ (l : List Char), (∀ c ∈ l, goIsSpace c = false) →
      l.dropWhile goIsSpace = l := by
    intro l hl
    cases l with
    | nil => rfl
    | cons c t => rw [List.dropWhile_cons, hl c (by simp)]; simp
  rw [goTrimSpace, drop_self _ h, drop_self _ fun c hc => h c (List.mem_reverse.mp hc),
    List.reverse_reverse]

lemma pipe_data : ("|" : String).data = ['|'] := rfl

lemma cleanLabel_spec (s : String) (h : cleanLabel s = true) :
    cleanField s = true ∧ s ≠ "" ∧ ',' ∉ s.data := by
  rw [cleanLabel] at h
  simp only [Bool.and_eq_true, Bool.not_eq_true'] at h
  refine ⟨h.1.1, ?_, ?_⟩
  · intro heq
    subst heq
    exact absurd h.1.2 (by decide)
  · intro hmem
    have := h.2
    simp at this
    exact this hmem

lemma goJoin_comma_spec (labels : List String) (h : ∀ l ∈ labels, cleanLabel l = true) :
    '|' ∉ (goJoin "," labels).data ∧ ∀ c ∈ (goJoin "," labels).data, goIsSpace c = false := by
  induction labels with
  | nil => simp [goJoin]
  | cons x t ih =>
    obtain ⟨hf, -, -⟩ := cleanLabel_spec x (h x (by simp))
    obtain ⟨hpipe, hspace⟩ := cleanField_spec x hf
    cases t with
    | nil => exact ⟨hpipe, hspace⟩
    | cons y t2 =>
      obtain ⟨ih1, ih2⟩ := ih fun l hl => h l (by simp [hl])
      have hdata : (goJoin "," (x :: y :: t2)).data =
          x.data ++ ',' :: (goJoin "," (y :: t2)).data := by
        show (x ++ "," ++ goJoin "," (y :: t2)).data = _
        simp [String.data_append]
      rw [hdata]
      constructor
      · intro hmem
        rcases List.mem_append.mp hmem with hx | hrest
        · exact hpipe hx
        · rcases List.mem_cons.mp hrest with hcomma | htail
          · cases hcomma
          · exact ih1 htail
      · intro c hc
        rcases List.mem_append.mp hc with hx | hrest
        · exact hspace c hx
        · rcases List.mem_cons.mp hrest with hcomma | htail
          · subst hcomma; rfl
          · exact ih2 c htail

lemma cleanLabels_goJoin (labels : List String) (h : ∀ l ∈ labels, cleanLabel l = true) :
    cleanLabels (goJoin "," labels) = labels := by
  induction labels with
  | nil => rfl
  | cons x t ih =>
    obtain ⟨hf, hne, hnc⟩ := cleanLabel_spec x (h x (by simp))
    obtain ⟨-, hspace⟩ := cleanField_spec x hf
    have ihh := ih fun l hl => h l (by simp [hl])
    cases t with
    | nil =>
      show cleanLabels (goJoin "," [x]) = [x]
      simp only [goJoin, cleanLabels, goSplit, splitCharList_no_sep ',' x.data hnc,
        List.map_cons, List.map_nil, string_mk_data, List.filterMap_cons, List.filterMap_nil]
      rw [goTrimSpace_eq_self x hspace]
      simp [hne]
    | cons y t2 =>
      have hdata : (goJoin "," (x :: y :: t2)).data =
          x.data ++ ',' :: (goJoin "," (y :: t2)).data := by
        show (x ++ "," ++ goJoin "," (y :: t2)).data = _
        simp [String.data_append]
      rw [cleanLabels, goSplit, hdata, splitCharList_append ',' _ _ hnc]
      rw [cleanLabels, goSplit] at ihh
      simp only [List.map_cons, string_mk_data, List.filterMap_cons]
      rw [goTrimSpace_eq_self x hspace, if_neg hne]
      rw [ihh]

lemma goSplit_recordLine (d : JobMetricDataC)
    (hj : '|' ∉ d.job.data) (hm : '|' ∉ d.metricName.data)
    (hlbl : '|' ∉ (goJoin "," d.labels).data) (hc : '|' ∉ d.cardinality.data)
    (hlc : '|' ∉ (labelCardinalityStr d).data) :
    goSplit '|' (recordLine d) =
      [d.job, d.metricName, goJoin "," d.labels, d.cardinality, labelCardinalityStr d] := by
  have hdata : (recordLine d).data =
      d.job.data ++ '|' :: (d.metricName.data ++ '|' :: ((goJoin "," d.labels).data ++ '|' ::
        (d.cardinality.data ++ '|' :: (labelCardinalityStr d).data))) := by
    simp [recordLine, String.data_append, pipe_data]
  simp only [goSplit, hdata]
  rw [splitCharList_append '|' _ _ hj, splitCharList_append '|' _ _ hm,
    splitCharList_append '|' _ _ hlbl, splitCharList_append '|' _ _ hc,
    splitCharList_no_sep '|' _ hlc]
  simp [string_mk_data]

/-- Parsing back one written data line recovers the record's job, metric
name, label list and (numeric) cardinality. -/
lemma parseJobMetricLine_recordLine (d : JobMetricDataC)
    (hj : cleanField d.job = true) (hm : cleanField d.metricName = true)
    (hc : cleanField d.cardinality = true) (hlcf : cleanField (labelCardinalityStr d) = true)
    (hhash : goStartsWith d.job "#" = false)
    (hl : ∀ l ∈ d.labels, cleanLabel l = true)
    (hn : (goParseInt d.cardinality).isSome = true) :
    parseJobMetricLine (recordLine d) =
      some { job := d.job, metricName := d.metricName, labels := d.labels
             cardinality := (goParseInt d.cardinality).getD 0
             labelCardinality :=
               if labelCardinalityStr d = "" then none
               else some (parseLabelCardinality (labelCardinalityStr d)) } := by
  obtain ⟨hjp, hjs⟩ := cleanField_spec _ hj
  obtain ⟨hmp, hms⟩ := cleanField_spec _ hm
  obtain ⟨hcp, hcs⟩ := cleanField_spec _ hc
  obtain ⟨hlcp, hlcs⟩ := cleanField_spec _ hlcf
  obtain ⟨hlblp, hlbls⟩ := goJoin_comma_spec d.labels hl
  have hdata : (recordLine d).data =
      d.job.data ++ '|' :: (d.metricName.data ++ '|' :: ((goJoin "," d.labels).data ++ '|' ::
        (d.cardinality.data ++ '|' :: (labelCardinalityStr d).data))) := by
    simp [recordLine, String.data_append, pipe_data]
  have hspaceAll : ∀ c ∈ (recordLine d).data, goIsSpace c = false := by
    rw [hdata]
    intro c hcmem
    simp only [List.mem_append, List.mem_cons] at hcmem
    rcases hcmem with h1 | h1 | h1 | h1 | h1 | h1 | h1 | h1 | h1
    · exact hjs c h1
    · subst h1; rfl
    · exact hms c h1
    · subst h1; rfl
    · exact hlbls c h1
    · subst h1; rfl
    · exact hcs c h1
    · subst h1; rfl
    · exact hlcs c h1
  have htrim : goTrimSpace (recordLine d) = recordLine d :=
    goTrimSpace_eq_self _ hspaceAll
  have hne : ¬recordLine d = "" := by
    intro heq
    rw [String.ext_iff, hdata] at heq
    simp at heq
  have hhash2 : goStartsWith (recordLine d) "#" = false := by
    unfold goStartsWith at hhash ⊢
    cases hjd : d.job.data with
    | nil => rw [hdata, hjd]; rfl
    | cons ch tl =>
      rw [hdata, hjd]
      rw [hjd] at hhash
      simpa [startsWithList] using hhash
  have hsplit := goSplit_recordLine d hjp hmp hlblp hcp hlcp
  obtain ⟨n, hn'⟩ := Option.isSome_iff_exists.mp hn
  rw [parseJobMetricLine]
  rw [htrim, if_neg (by push_neg; exact ⟨hne, by rw [hhash2]; exact Bool.false_ne_true⟩),
    hsplit]
  simp only [List.length_cons, List.length_nil, List.getD]
  norm_num
  rw [goTrimSpace_eq_self _ hcs, goTrimSpace_eq_self _ hlcs,
    goTrimSpace_eq_self _ hlbls, hn']
  simp only [Option.getD_some]
  rw [cleanLabels_goJoin d.labels hl, goTrimSpace_eq_self _ hjs, goTrimSpace_eq_self _ hms]

/-- The per-job round trip over a list of records satisfying the
cleanliness preconditions. -/
lemma roundtrip_list (L : List JobMetricDataC)
    (hfields : ∀ d ∈ L,
      cleanField d.job = true ∧ cleanField d.metricName = true ∧
      cleanField d.cardinality = true ∧ cleanField (labelCardinalityStr d) = true ∧
      goStartsWith d.job "#" = false ∧ (∀ l ∈ d.labels, cleanLabel l = true) ∧
      (goParseInt d.cardinality).isSome = true) :
    ((L.map recordLine).filterMap parseJobMetricLine).map
        (fun r => (r.job, r.metricName, r.labels, r.cardinality)) =
      L.map fun d => (d.job, d.metricName, d.labels, (goParseInt d.cardinality).getD 0) := by
  induction L with
  | nil => rfl
  | cons d t ih =>
    obtain ⟨h1, h2, h3, h4, h5, h6, h7⟩ := hfields d (by simp)
    have hline := parseJobMetricLine_recordLine d h1 h2 h3 h4 h5 h6 h7
    simp only [List.map_cons, List.filterMap_cons, hline]
    rw [ih fun x hx => hfields x (by simp [hx])]

/-- C9 (amended): writing the per-job record file and parsing it back
yields the same `(job, metricName, labels, cardinality)` records, provided
the job, metric-name, label and cardinality cells are ASCII with no `|`
and no whitespace, labels are non-empty and comma-free, the job name does
not begin with `#` (a written line starting with `#` is skipped as a
comment on read), and the cardinality cell parses as a base-10 `int64`. -/
theorem record_file_round_trip (j : String) (allData : List JobMetricDataC)
    (hfields : ∀ d ∈ allData,
      cleanField d.job = true ∧ cleanField d.metricName = true ∧
      cleanField d.cardinality = true ∧ cleanField (labelCardinalityStr d) = true ∧
      goStartsWith d.job "#" = false ∧ (∀ l ∈ d.labels, cleanLabel l = true) ∧
      (goParseInt d.cardinality).isSome = true) :
    (LoadJobMetricReport (writePerJobFile j allData)).map
        (fun r => (r.job, r.metricName, r.labels, r.cardinality)) =
      (allData.filter fun d => d.job == j).map
        (fun d => (d.job, d.metricName, d.labels, (goParseInt d.cardinality).getD 0)) := by
  rw [writePerJobFile, LoadJobMetricReport]
  exact roundtrip_list _ fun d hd => hfields d (List.mem_of_mem_filter hd)

/-- A record set satisfying every precondition the round-trip claim states
(no pipes anywhere, comma-free non-empty labels, numeric cardinality) —
except that the job name happens to begin with `#`. -/
def hashJobData : List JobMetricDataC :=
  [{ job := "#svc", metricName := "m", labels := ["a"], cardinality := "5",
     labelCardinality := none }]

/-- C9 counterexample: under the claim's stated preconditions (no pipe in
job/metric/label names, comma-free labels that are non-empty after
trimming, decimal cardinality) the round trip still fails: the written
line for job `"#svc"` starts with `#`, so `LoadJobMetricReport` skips it
as a comment and returns no records although one was written. -/
theorem hash_job_breaks_round_trip :
    (∀ d ∈ hashJobData,
      d.job.data.contains '|' = false ∧ d.metricName.data.contains '|' = false ∧
      (∀ l ∈ d.labels, l.data.contains '|' = false ∧ l.data.contains ',' = false ∧
        ¬goTrimSpace l = "") ∧
      (goParseInt d.cardinality).isSome = true) ∧
    (hashJobData.filter fun d => d.job == "#svc").length = 1 ∧
    LoadJobMetricReport (writePerJobFile "#svc" hashJobData) = [] := by
  refine ⟨?_, rfl, rfl⟩
  intro d hd
  simp only [hashJobData, List.mem_singleton] at hd
  subst hd
  refine ⟨rfl, rfl, ?_, rfl⟩
  intro l hl
  simp only [List.mem_singleton] at hl
  subst hl
  exact ⟨rfl, rfl, by decide⟩

/-- Clean data for the round-trip witness: one job with two records, one of
which carries a per-label cardinality map. -/
def cleanJobData : List JobMetricDataC :=
  [{ job := "svc", metricName := "m1", labels := ["a", "b"], cardinality := "42",
     labelCardinality := some [("a", 3), ("b", 2)] },
   { job := "svc", metricName := "m2", labels := [], cardinality := "0",
     labelCardinality := none },
   { job := "other", metricName := "m3", labels := ["x"], cardinality := "1",
     labelCardinality := none }]

/-- Witness for `record_file_round_trip` on `cleanJobData` for job
`"svc"`. -/
theorem record_file_round_trip_witness :
    (LoadJobMetricReport (writePerJobFile "svc" cleanJobData)).map
        (fun r => (r.job, r.metricName, r.labels, r.cardinality)) =
      (cleanJobData.filter fun d => d.job == "svc").map
        (fun d => (d.job, d.metricName, d.labels, (goParseInt d.cardinality).getD 0)) :=
  record_file_round_trip "svc" cleanJobData (by decide)

end InstrScore
